import Mathlib

set_option maxRecDepth 40000

/-!
Verification development for the TUF ngclient updater
(`src/tuf/ngclient/updater.py`).

The definitions below are a shallow embedding of the updater's data model
and operations.  Pure functions of the source become Lean functions;
stateful code becomes explicit state passing, with the effects that the
claims talk about (network fetches, persistence, calls into the trusted
metadata set) recorded as explicit event traces.  External collaborators
(the fetcher, the local store, the `TrustedMetadataSet` transition checks
and the securesystemslib hash module) are represented by oracle parameters
or, where a claim mentions their concrete behaviour, modelled from the
specification, as noted in the doc comments.
-/

/- ## Byte-level primitives (hashing, hex, UTF-8)

Modelled from the spec: `_get_filepath_hash` in updater.py delegates the
digest computation to the external `securesystemslib.hash` module (not
under src/).  The spec says the digest is "the hash (configurable digest,
default a 256-bit cryptographic hash) of the UTF-8 bytes of target_path,
hex-encode[d]"; the default algorithm named in the source is "sha256".
We therefore implement standard SHA-256 over byte lists, lowercase hex
encoding, and standard UTF-8 encoding of unicode scalar values (Python
`str.encode("utf-8")` on strings without surrogates). -/

/-- Truncation to a 32-bit word: machine words are `Nat` reduced mod 2^32. -/
def w32 (n : Nat) : Nat := n % 4294967296

/-- Right rotation of a 32-bit word by `k` positions (`0 < k < 32`),
expressed arithmetically: low `k` bits move to the top. -/
def rotr32 (k x : Nat) : Nat := x / 2 ^ k + x % 2 ^ k * 2 ^ (32 - k)

/-- Bitwise complement within 32 bits (input assumed `< 2^32`). -/
def not32 (x : Nat) : Nat := 4294967295 - x

/-- SHA-256 `Ch` function. -/
def sha256ch (e f g : Nat) : Nat := (e &&& f) ^^^ (not32 e &&& g)

/-- SHA-256 `Maj` function. -/
def sha256maj (a b c : Nat) : Nat := (a &&& b) ^^^ (a &&& c) ^^^ (b &&& c)

/-- SHA-256 `Σ0`. -/
def bigSigma0 (a : Nat) : Nat := rotr32 2 a ^^^ rotr32 13 a ^^^ rotr32 22 a

/-- SHA-256 `Σ1`. -/
def bigSigma1 (e : Nat) : Nat := rotr32 6 e ^^^ rotr32 11 e ^^^ rotr32 25 e

/-- SHA-256 `σ0`. -/
def smallSigma0 (x : Nat) : Nat := rotr32 7 x ^^^ rotr32 18 x ^^^ x / 2 ^ 3

/-- SHA-256 `σ1`. -/
def smallSigma1 (x : Nat) : Nat := rotr32 17 x ^^^ rotr32 19 x ^^^ x / 2 ^ 10

/-- The 64 SHA-256 round constants. -/
def sha256K : List Nat :=
  [1116352408, 1899447441, 3049323471, 3921009573, 961987163, 1508970993,
   2453635748, 2870763221, 3624381080, 310598401, 607225278, 1426881987,
   1925078388, 2162078206, 2614888103, 3248222580, 3835390401, 4022224774,
   264347078, 604807628, 770255983, 1249150122, 1555081692, 1996064986,
   2554220882, 2821834349, 2952996808, 3210313671, 3336571891, 3584528711,
   113926993, 338241895, 666307205, 773529912, 1294757372, 1396182291,
   1695183700, 1986661051, 2177026350, 2456956037, 2730485921, 2820302411,
   3259730800, 3345764771, 3516065817, 3600352804, 4094571909, 275423344,
   430227734, 506948616, 659060556, 883997877, 958139571, 1322822218,
   1537002063, 1747873779, 1955562222, 2024104815, 2227730452, 2361852424,
   2428436474, 2756734187, 3204031479, 3329325298]

/-- Hash state: the eight 32-bit working variables of SHA-256. -/
structure Sha256St where
  a : Nat
  b : Nat
  c : Nat
  d : Nat
  e : Nat
  f : Nat
  g : Nat
  h : Nat

/-- Initial SHA-256 hash value. -/
def sha256init : Sha256St :=
  ⟨1779033703, 3144134277, 1013904242, 2773480762,
   1359893119, 2600822924, 528734635, 1541459225⟩

/-- One round of the SHA-256 compression function. -/
def sha256round (s : Sha256St) (k w : Nat) : Sha256St :=
  let t1 := w32 (s.h + bigSigma1 s.e + sha256ch s.e s.f s.g + k + w)
  let t2 := w32 (bigSigma0 s.a + sha256maj s.a s.b s.c)
  ⟨w32 (t1 + t2), s.a, s.b, s.c, w32 (s.d + t1), s.e, s.f, s.g⟩

/-- Extend a message schedule: `acc` holds the schedule produced so far in
reverse order; `n` more words are generated by the SHA-256 recurrence. -/
def sha256extend : Nat → List Nat → List Nat
  | 0, acc => acc.reverse
  | n + 1, acc =>
    sha256extend n
      (w32 (smallSigma1 (acc.getD 1 0) + acc.getD 6 0 +
            smallSigma0 (acc.getD 14 0) + acc.getD 15 0) :: acc)

/-- Full 64-word message schedule from the 16 words of one block. -/
def sha256schedule (ws : List Nat) : List Nat := sha256extend 48 ws.reverse

/-- Compress one 16-word block into the hash state. -/
def sha256compress (s : Sha256St) (ws : List Nat) : Sha256St :=
  let t := (sha256K.zip (sha256schedule ws)).foldl
    (fun st kw => sha256round st kw.1 kw.2) s
  ⟨w32 (s.a + t.a), w32 (s.b + t.b), w32 (s.c + t.c), w32 (s.d + t.d),
   w32 (s.e + t.e), w32 (s.f + t.f), w32 (s.g + t.g), w32 (s.h + t.h)⟩

/-- Big-endian byte decomposition: `toBytesBE k n` is the `k`-byte
big-endian encoding of `n`. -/
def toBytesBE : Nat → Nat → List Nat
  | 0, _ => []
  | k + 1, n => toBytesBE k (n / 256) ++ [n % 256]

/-- Group a byte list into big-endian 32-bit words (length a multiple of 4). -/
def bytesToWords : List Nat → List Nat
  | a :: b :: c :: d :: rest => (((a * 256 + b) * 256 + c) * 256 + d) :: bytesToWords rest
  | _ => []

/-- SHA-256 padding: append `0x80`, zero bytes, and the 64-bit big-endian
bit length, reaching a multiple of 64 bytes. -/
def sha256pad (msg : List Nat) : List Nat :=
  msg ++ 128 :: List.replicate ((119 - msg.length % 64) % 64) 0 ++
    toBytesBE 8 (8 * msg.length)

/-- Iterate the compression function over `n` 64-byte blocks. -/
def sha256blocks : Nat → List Nat → Sha256St → Sha256St
  | 0, _, s => s
  | n + 1, bytes, s =>
    sha256blocks n (bytes.drop 64) (sha256compress s (bytesToWords (bytes.take 64)))

/-- SHA-256 digest of a byte list, as a list of 32 bytes. -/
def sha256 (msg : List Nat) : List Nat :=
  let padded := sha256pad msg
  let s := sha256blocks (padded.length / 64) padded sha256init
  toBytesBE 4 s.a ++ toBytesBE 4 s.b ++ toBytesBE 4 s.c ++ toBytesBE 4 s.d ++
  toBytesBE 4 s.e ++ toBytesBE 4 s.f ++ toBytesBE 4 s.g ++ toBytesBE 4 s.h

/-- Lowercase hex digit for a value `< 16`. -/
def hexDigit (n : Nat) : Char :=
  if n < 10 then Char.ofNat (48 + n) else Char.ofNat (87 + n)

/-- Lowercase hex encoding of a byte list (Python `hexdigest()`). -/
def hexEncode (bs : List Nat) : String :=
  String.mk (bs.foldr (fun b acc => hexDigit (b / 16) :: hexDigit (b % 16) :: acc) [])

/-- UTF-8 encoding of one unicode scalar value. -/
def utf8Char (c : Char) : List Nat :=
  let n := c.toNat
  if n < 128 then [n]
  else if n < 2048 then [192 + n / 64, 128 + n % 64]
  else if n < 65536 then [224 + n / 4096, 128 + n / 64 % 64, 128 + n % 64]
  else [240 + n / 262144, 128 + n / 4096 % 64, 128 + n / 64 % 64, 128 + n % 64]

/-- UTF-8 encoding of a string (Python `target_filepath.encode("utf-8")`). -/
def utf8Encode (s : String) : List Nat := (s.data.map utf8Char).flatten

/-- Embedding of `_get_filepath_hash` (updater.py lines 499-511): the
lowercase hex encoding of the SHA-256 digest of the UTF-8 encoding of the
target path.  The digest itself is modelled from the spec, as explained
above. -/
def get_filepath_hash (target_filepath : String) : String :=
  hexEncode (sha256 (utf8Encode target_filepath))

/- ## Shell-glob matching

Modelled from the spec: `_visit_child_role` in updater.py calls the Python
standard-library function `fnmatch.fnmatch` (not part of this repository).
The spec describes it as a "shell-glob match (`*`, `?`, `[...]` semantics)"
where the "first match authorizes"; we implement that matcher: `*` matches
any (possibly empty) sequence, `?` any single character, and `[...]` a
character class with ranges and `!`-negation (a `[` without a closing `]`
is treated as a literal character). -/

/-- Does character `c` belong to the character-class body (ranges allowed)? -/
def classMatches : List Char → Char → Bool
  | a :: '-' :: b :: rest, c => (a ≤ c && c ≤ b) || classMatches rest c
  | a :: rest, c => (a == c) || classMatches rest c
  | [], _ => false

/-- Split a character-class body from the rest of the pattern: scan up to the
closing `]` (a `]` in first position is a literal member).  `acc` is the
reversed body collected so far. -/
def splitClass : List Char → List Char → Option (List Char × List Char)
  | _, [] => none
  | acc, c :: rest =>
    if c = ']' ∧ acc ≠ [] then some (acc.reverse, rest)
    else splitClass (c :: acc) rest

/-- Glob matching with explicit fuel (every recursive call shrinks the
pattern or the string, so `pattern.length + string.length + 1` units always
suffice). -/
def globMatchFuel : Nat → List Char → List Char → Bool
  | 0, _, _ => false
  | fuel + 1, p, s =>
    match p, s with
    | [], [] => true
    | [], _ :: _ => false
    | '*' :: pr, _ =>
      globMatchFuel fuel pr s ||
        (match s with
         | [] => false
         | _ :: sr => globMatchFuel fuel ('*' :: pr) sr)
    | '[' :: pr, c :: sr =>
      (match pr with
       | '!' :: pr2 =>
         (match splitClass [] pr2 with
          | some (body, rest) => !classMatches body c && globMatchFuel fuel rest sr
          | none => ('[' == c) && globMatchFuel fuel pr sr)
       | _ =>
         (match splitClass [] pr with
          | some (body, rest) => classMatches body c && globMatchFuel fuel rest sr
          | none => ('[' == c) && globMatchFuel fuel pr sr))
    | '[' :: _, [] => false
    | '?' :: pr, _ :: sr => globMatchFuel fuel pr sr
    | '?' :: _, [] => false
    | c :: pr, d :: sr => (c == d) && globMatchFuel fuel pr sr
    | _ :: _, [] => false

/-- Embedding of `fnmatch.fnmatch(name, pat)` (POSIX `normcase` is the
identity). -/
def fnmatchB (name pat : String) : Bool :=
  globMatchFuel (pat.length + name.length + 1) pat.data name.data

/-- Embedding of Python `s.lstrip(os.sep)`: remove all leading `/`. -/
def lstripSep (s : String) : String :=
  String.mk (s.data.dropWhile (fun c => c == '/'))

/- ## Data model of delegations (updater.py / tuf.api.metadata) -/

/-- A child-role descriptor of a `delegations` structure: name, declared
path patterns or hashed-path-prefixes, and the terminating flag. -/
structure DelegatedRole where
  name : String
  paths : Option (List String)
  path_hash_prefixes : Option (List String)
  terminating : Bool
deriving DecidableEq, Repr

/-- Error kinds raised by the embedded operations:
`formatError` models `exceptions.FormatError`,
`repositoryError` models the `RepositoryError` family (including a failed
`_load_targets`). -/
inductive WalkErr
  | formatError
  | repositoryError
deriving DecidableEq, Repr

/-- Embedding of `_visit_child_role` (updater.py lines 403-496): decide
whether `target_filepath` is an allowed path of `child_role`.  The
hashed-path-prefixes branch is checked first; the explicit-paths branch
strips leading separators from both sides and glob-matches; with neither
field present a `FormatError` is raised.  The source loops return the
child's name on the first match, which is equivalent to the `List.any`
tests used here. -/
def visit_child_role (child_role : DelegatedRole) (target_filepath : String) :
    Except WalkErr (Option String) :=
  match child_role.path_hash_prefixes with
  | some hashPrefixes =>
    let target_filepath_hash := get_filepath_hash target_filepath
    if hashPrefixes.any (fun p => p.data.isPrefixOf target_filepath_hash.data)
    then .ok (some child_role.name)
    else .ok none
  | none =>
    match child_role.paths with
    | some child_role_paths =>
      if child_role_paths.any
          (fun p => fnmatchB (lstripSep target_filepath) (lstripSep p))
      then .ok (some child_role.name)
      else .ok none
    | none => .error .formatError

/- ## The preorder depth-first walk (updater.py lines 308-400) -/

/-- The `signed` part of a targets metadata document: the role's own
target mapping (`targets`, an association from target path to fileinfo)
and the optional ordered list of child delegations
(`delegations.roles`).  The fileinfo payload is abstracted to a `Nat`
token, which is all the walk inspects. -/
structure TargetsRole where
  targets : List (String × Nat)
  delegations : Option (List DelegatedRole)
deriving DecidableEq, Repr

/-- The repository contents as seen through a successful `_load_targets`:
the association of role names with their (verified) targets metadata.  A
role absent from the repository makes `_load_targets` raise, which the
walk embedding maps to `WalkErr.repositoryError`. -/
abbrev Repo := List (String × TargetsRole)

/-- Embedding of the child-scanning loop of `_preorder_depth_first_walk`
(updater.py lines 350-377): scan `child_roles` in declared order, collect
the authorized ones (paired with the delegating role's name) into
`child_roles_to_visit`; when an authorized child is `terminating`, append
it and break, signalling (second component `true`) that the caller's work
stack `role_names` was reset to `[]`. -/
def scanChildren (child_roles : List DelegatedRole) (target_filepath role_name : String) :
    Except WalkErr (List (String × String) × Bool) :=
  match child_roles with
  | [] => .ok ([], false)
  | child_role :: rest =>
    match visit_child_role child_role target_filepath with
    | .error e => .error e
    | .ok child_role_name =>
      match child_role_name, child_role.terminating with
      | some n, true => .ok ([(n, role_name)], true)
      | some n, false =>
        (match scanChildren rest target_filepath role_name with
         | .error e => .error e
         | .ok (lst, cleared) => .ok ((n, role_name) :: lst, cleared))
      | none, _ => scanChildren rest target_filepath role_name

/-- Outcome of the walk loop, with the quantities the specification's
claims talk about recorded explicitly: the resolved fileinfo (the loop
variable `target`), the number of stack pops performed, the number of
first visits (iterations that got past the visited-set check), and the
final value of `number_of_delegations`. -/
structure WalkStats where
  fileinfo : Option Nat
  pops : Nat
  firstVisits : Nat
  budgetLeft : Nat
deriving DecidableEq, Repr

/-- Embedding of the `while` loop of `_preorder_depth_first_walk`
(updater.py lines 321-383).  The stack is kept top-first (the Python list
pops from its end and extends with the reversed `child_roles_to_visit`,
which is the same as consing the collected children, in declared order,
onto the remaining stack here).  Each iteration pops, performs
`_load_targets` (failure is a `RepositoryError`), skips an
already-visited `(role, parent)` pair (the `continue` happens before the
budget decrement), otherwise looks the target path up in the role's own
mapping, marks the pair visited, decrements the budget, and either stops
(found) or scans the child delegations.  `fuel` only bounds the
recursion; `sufficient_fuel` below provides enough for any input. -/
def walkLoop (env : Repo) (target_filepath : String) :
    Nat → Nat → List (String × String) → List (String × String) → Nat → Nat →
    Option (Except WalkErr WalkStats)
  | 0, _, _, _, _, _ => none
  | fuel + 1, budget, stack, visited, pops, fv =>
    if budget = 0 then some (.ok ⟨none, pops, fv, budget⟩)
    else
      match stack with
      | [] => some (.ok ⟨none, pops, fv, budget⟩)
      | (role_name, parent_role) :: rest =>
        match env.lookup role_name with
        | none => some (.error .repositoryError)
        | some role_metadata =>
          if (role_name, parent_role) ∈ visited then
            walkLoop env target_filepath fuel budget rest visited (pops + 1) fv
          else
            match role_metadata.targets.lookup target_filepath with
            | some fi => some (.ok ⟨some fi, pops + 1, fv + 1, budget - 1⟩)
            | none =>
              match scanChildren (role_metadata.delegations.getD []) target_filepath role_name with
              | .error e => some (.error e)
              | .ok (child_roles_to_visit, cleared) =>
                walkLoop env target_filepath fuel (budget - 1)
                  (child_roles_to_visit ++ (if cleared then [] else rest))
                  ((role_name, parent_role) :: visited) (pops + 1) (fv + 1)

/-- The largest number of child delegations any role of the repository can
push in one iteration. -/
def maxPush (env : Repo) : Nat :=
  env.foldr (fun pr acc => max (pr.2.delegations.getD []).length acc) 0

/-- Enough fuel for `walkLoop` on any input: each iteration either
consumes one budget unit (pushing at most `maxPush env` new entries) or
shrinks the stack, so `budget * maxPush env + stack.length + 1` iterations
can never be exceeded; the walk starts with a one-element stack. -/
def sufficient_fuel (env : Repo) (budget : Nat) : Nat :=
  budget * maxPush env + 2

/-- The dictionary returned by `_preorder_depth_first_walk` /
`get_one_valid_targetinfo`: the requested path and the resolved fileinfo
(`none` when no trusted role claims the path). -/
structure WalkResult where
  filepath : String
  fileinfo : Option Nat
deriving DecidableEq, Repr

/-- Embedding of `_preorder_depth_first_walk` (updater.py lines 308-400):
run the loop from the initial stack `[("targets", "root")]`, an empty
visited set and `number_of_delegations = max_delegations`, and wrap the
resolved target in the result dictionary. -/
def preorder_depth_first_walk (env : Repo) (max_delegations : Nat)
    (target_filepath : String) : Option (Except WalkErr WalkResult) :=
  match walkLoop env target_filepath (sufficient_fuel env max_delegations)
      max_delegations [("targets", "root")] [] 0 0 with
  | none => none
  | some (.error e) => some (.error e)
  | some (.ok stats) => some (.ok ⟨target_filepath, stats.fileinfo⟩)

/-- Embedding of `get_one_valid_targetinfo` (updater.py lines 94-112),
which returns `self._preorder_depth_first_walk(target_path)`. -/
def get_one_valid_targetinfo (env : Repo) (max_delegations : Nat)
    (target_path : String) : Option (Except WalkErr WalkResult) :=
  preorder_depth_first_walk env max_delegations target_path

/- ## Concrete repositories used in counterexamples and witnesses -/

/-- Non-terminating child authorized for `*.txt` that claims `a.txt`. -/
def roleS : DelegatedRole := ⟨"S", some ["*.txt"], none, false⟩

/-- Terminating child authorized for `*.txt` that claims nothing. -/
def roleT : DelegatedRole := ⟨"T", some ["*.txt"], none, true⟩

/-- Repository where `targets` delegates to `S` (non-terminating, claims
`a.txt`) and then to `T` (terminating, claims nothing). -/
def repoST : Repo :=
  [("targets", ⟨[], some [roleS, roleT]⟩),
   ("S", ⟨[("a.txt", 1)], none⟩),
   ("T", ⟨[], none⟩)]

/-- Terminating child `C`, matches `*.txt`, claims nothing. -/
def roleC : DelegatedRole := ⟨"C", some ["*.txt"], none, true⟩

/-- Later-declared sibling `D`, matches `*.txt`, claims `a.txt`. -/
def roleD : DelegatedRole := ⟨"D", some ["*.txt"], none, false⟩

/-- Repository for the terminating-truncation scenario: `targets`
delegates to `C` (terminating, no claim) and then to `D` (claims
`a.txt`). -/
def repoCD : Repo :=
  [("targets", ⟨[], some [roleC, roleD]⟩),
   ("C", ⟨[], none⟩),
   ("D", ⟨[("a.txt", 2)], none⟩)]

/-- Child `B` whose paths include `a.txt`. -/
def roleB : DelegatedRole := ⟨"B", some ["a.txt"], none, false⟩

/-- Repository where `targets` both declares `a.txt` directly (fileinfo 0)
and delegates to `B`, which also claims `a.txt` (fileinfo 1). -/
def repoTopB : Repo :=
  [("targets", ⟨[("a.txt", 0)], some [roleB]⟩),
   ("B", ⟨[("a.txt", 1)], none⟩)]

/-- Child `A`, authorized for everything, claims nothing. -/
def roleA : DelegatedRole := ⟨"A", some ["*"], none, false⟩

/-- Repository where `targets` delegates to `A` twice, so the pair
`("A", "targets")` is pushed twice and the second pop is skipped as
already visited. -/
def repoAA : Repo :=
  [("targets", ⟨[], some [roleA, roleA]⟩),
   ("A", ⟨[], none⟩)]

/- ## updated_targets (updater.py lines 114-154) -/

/-- Embedding of `os.path.join(destination_directory, filepath)` on POSIX:
a `filepath` with a leading separator discards the directory (a behaviour
the source comments on explicitly). -/
def osPathJoin (dir fp : String) : String :=
  if fp.data.head? = some '/' then fp
  else if dir = "" then fp
  else if dir.data.getLast? = some '/' then dir ++ fp
  else dir ++ "/" ++ fp

/-- A target dictionary as consumed by `updated_targets`: the
metadata-relative filepath and its fileinfo (abstracted to a token; the
actual length-and-hashes comparison is performed by the external
`TargetFile.verify_length_and_hashes` and enters the model through the
`verifyOk` oracle below). -/
structure TargetDict where
  filepath : String
  fileinfo : Nat
deriving DecidableEq, Repr

/-- Embedding of the loop of `updated_targets`: `verifyOk dest fi = false`
models the caught `(OSError, LengthOrHashMismatchError)` — the
destination file is missing, unreadable, or fails the declared
length-and-hashes check of fileinfo `fi`.  `seen` is the
`updated_targetpaths` accumulator: a destination path already recorded is
skipped before any verification. -/
def updatedTargetsLoop (verifyOk : String → Nat → Bool)
    (destination_directory : String) :
    List TargetDict → List String → List TargetDict
  | [], _ => []
  | target :: rest, seen =>
    let target_filepath := osPathJoin destination_directory target.filepath
    if target_filepath ∈ seen then
      updatedTargetsLoop verifyOk destination_directory rest seen
    else if verifyOk target_filepath target.fileinfo then
      updatedTargetsLoop verifyOk destination_directory rest seen
    else
      target :: updatedTargetsLoop verifyOk destination_directory rest
        (target_filepath :: seen)

/-- Embedding of `updated_targets` (updater.py lines 114-154). -/
def updated_targets (verifyOk : String → Nat → Bool)
    (targets : List TargetDict) (destination_directory : String) :
    List TargetDict :=
  updatedTargetsLoop verifyOk destination_directory targets []

/- ## _load_root (updater.py lines 224-250) -/

/-- Outcome of one `_download_metadata` call for a root version: the
fetched bytes (abstracted to a token), a `FetcherHTTPError` with its
status code, or any other download failure. -/
inductive FetchOutcome
  | success (data : Nat)
  | httpError (status : Nat)
  | failure
deriving DecidableEq, Repr

/-- Oracles for `_load_root`: what the fetcher returns per requested
version, whether `TrustedMetadataSet.update_root` accepts the fetched
bytes, and whether `root_update_finished` succeeds (the final expiry
check). -/
structure RootEnv where
  fetch : Nat → FetchOutcome
  updateOk : Nat → Bool
  finishOk : Bool

/-- Events recorded while `_load_root` runs: a root fetch for a given
version, a persist of accepted root bytes, and the
`root_update_finished` call. -/
inductive RootEv
  | fetchRoot (version : Nat)
  | persistRoot (data : Nat)
  | finishedEv
deriving DecidableEq, Repr

/-- Errors `_load_root` can propagate: a re-raised `FetcherHTTPError`
(status outside 403/404), any other download failure, a rejected root
(`update_root` raised), or an expired final root
(`root_update_finished` raised). -/
inductive RootErr
  | httpFatal (status : Nat)
  | fetchFailure
  | repoError
  | expired
deriving DecidableEq, Repr

/-- Embedding of the rotation loop of `_load_root`
(`for next_version in range(lower_bound, upper_bound)`): `count` is the
number of iterations left, `v` the next version to request.  Each
iteration downloads `{v}.root.json`; on success the data is fed to
`update_root` and, if accepted, persisted before the next version is
requested; a `FetcherHTTPError` with status 403/404 breaks out of the
loop normally, any other status is re-raised, and any non-HTTP download
failure propagates. -/
def rootLoop (env : RootEnv) : Nat → Nat → List RootEv × Option RootErr
  | 0, _ => ([], none)
  | count + 1, v =>
    match env.fetch v with
    | .success d =>
      if env.updateOk d then
        let r := rootLoop env count (v + 1)
        (.fetchRoot v :: .persistRoot d :: r.1, r.2)
      else ([.fetchRoot v], some .repoError)
    | .httpError s =>
      if s = 403 ∨ s = 404 then ([.fetchRoot v], none)
      else ([.fetchRoot v], some (.httpFatal s))
    | .failure => ([.fetchRoot v], some .fetchFailure)

/-- Embedding of `_load_root` (updater.py lines 224-250): rotate from
`current_root.version + 1` for at most `max_root_rotations` versions,
then call `root_update_finished` exactly once if the loop did not
propagate an error. -/
def load_root (env : RootEnv) (currentVersion max_root_rotations : Nat) :
    List RootEv × Option RootErr :=
  match (rootLoop env max_root_rotations (currentVersion + 1)).2 with
  | some e => ((rootLoop env max_root_rotations (currentVersion + 1)).1, some e)
  | none => ((rootLoop env max_root_rotations (currentVersion + 1)).1 ++ [.finishedEv],
             if env.finishOk then none else some .expired)

/- ## _load_timestamp (updater.py lines 252-266) -/

/-- Oracles for `_load_timestamp`: the local read (`none` models an
`OSError`), whether `update_timestamp` accepts the local bytes
(`false` models a `RepositoryError`), the remote download (`none` models
a download failure, which propagates), and whether `update_timestamp`
accepts the remote bytes. -/
structure TsEnv where
  localRead : Option Nat
  localUpdateOk : Nat → Bool
  remoteFetch : Option Nat
  remoteUpdateOk : Nat → Bool

/-- Events recorded while `_load_timestamp` runs. -/
inductive TsEv
  | localAttempt
  | fetchRemote
  | persistTs (data : Nat)
deriving DecidableEq, Repr

/-- Errors `_load_timestamp` can propagate (only from the remote half:
local failures are swallowed). -/
inductive TsErr
  | downloadError
  | repoError
deriving DecidableEq, Repr

/-- Result of a `_load_timestamp` run: the event trace, the propagated
error if any, and the timestamp held by the trusted set afterwards. -/
structure TsRun where
  trace : List TsEv
  outcome : Option TsErr
  trusted : Option Nat
deriving DecidableEq, Repr

/-- Embedding of `_load_timestamp` (updater.py lines 252-266): the local
load/update attempt is wrapped in `except (OSError, RepositoryError)`
and only logged; then the remote timestamp is always fetched, fed to
`update_timestamp`, and persisted on success. -/
def load_timestamp (env : TsEnv) : TsRun :=
  let localState : Option Nat :=
    match env.localRead with
    | none => none
    | some d => if env.localUpdateOk d then some d else none
  match env.remoteFetch with
  | none => ⟨[.localAttempt, .fetchRemote], some .downloadError, localState⟩
  | some d =>
    if env.remoteUpdateOk d then
      ⟨[.localAttempt, .fetchRemote, .persistTs d], none, some d⟩
    else ⟨[.localAttempt, .fetchRemote], some .repoError, localState⟩

/- ## _load_snapshot (updater.py lines 268-286) -/

/-- Oracles and inputs for `_load_snapshot`: the local read and
`update_snapshot` acceptance (both failures swallowed into the remote
fallback), the accepted timestamp's `meta["snapshot.json"]` reference
(`metaLength`, `metaVersion`), the trusted root's `consistent_snapshot`
flag, the configured `snapshot_max_length`, and the remote download
oracle, keyed by requested filename and length. -/
structure SnapEnv where
  localRead : Option Nat
  localUpdateOk : Nat → Bool
  metaLength : Option Nat
  metaVersion : Nat
  consistent_snapshot : Bool
  snapshot_max_length : Nat
  remoteFetch : String → Nat → Option Nat
  remoteUpdateOk : Nat → Bool

/-- Events recorded while `_load_snapshot` runs. -/
inductive SnapEv
  | localAttempt
  | fetchSnap (filename : String) (length : Nat)
  | persistSnap (data : Nat)
deriving DecidableEq, Repr

/-- Errors `_load_snapshot` can propagate. -/
inductive SnapErr
  | downloadError
  | repoError
deriving DecidableEq, Repr

/-- Embedding of the filename computation of `_download_metadata`
(updater.py lines 205-214): `{rolename}.json`, or
`{version}.{rolename}.json` when a version is given. -/
def metadata_filename (rolename : String) (version : Option Nat) : String :=
  match version with
  | none => rolename ++ ".json"
  | some v => toString v ++ "." ++ rolename ++ ".json"

/-- The download length computed by `_load_snapshot`:
`metainfo.length or self.config.snapshot_max_length` — Python `or`
falls back to the configuration when the declared length is `None`
or a falsy `0`. -/
def snapshotFetchLength (env : SnapEnv) : Nat :=
  match env.metaLength with
  | some l => if l = 0 then env.snapshot_max_length else l
  | none => env.snapshot_max_length

/-- The version argument `_load_snapshot` passes to `_download_metadata`:
the timestamp-referenced version when `consistent_snapshot` is set,
`None` otherwise. -/
def snapshotFetchVersion (env : SnapEnv) : Option Nat :=
  if env.consistent_snapshot then some env.metaVersion else none

/-- The remote half of `_load_snapshot` (the body of the `except`
clause). -/
def snapshotRemote (env : SnapEnv) : List SnapEv × Option SnapErr :=
  let length := snapshotFetchLength env
  let filename := metadata_filename "snapshot" (snapshotFetchVersion env)
  match env.remoteFetch filename length with
  | none => ([.fetchSnap filename length], some .downloadError)
  | some d =>
    if env.remoteUpdateOk d then
      ([.fetchSnap filename length, .persistSnap d], none)
    else ([.fetchSnap filename length], some .repoError)

/-- Does the locally cached snapshot load and validate?  (The guard of
the `try` body of `_load_snapshot`.) -/
def localSnapshotOk (env : SnapEnv) : Bool :=
  match env.localRead with
  | none => false
  | some d => env.localUpdateOk d

/-- Embedding of `_load_snapshot` (updater.py lines 268-286): if the local
snapshot loads and validates nothing is fetched; otherwise the remote
snapshot is downloaded under the computed filename and length, fed to
`update_snapshot`, and persisted on success. -/
def load_snapshot (env : SnapEnv) : List SnapEv × Option SnapErr :=
  if localSnapshotOk env then ([.localAttempt], none)
  else (.localAttempt :: (snapshotRemote env).1, (snapshotRemote env).2)

/- ## Helper functions for stating the claims -/

/-- Decidable equality for `Except` values (used to evaluate concrete
walk outcomes). -/
instance exceptDecEq {ε : Type u} {α : Type v} [DecidableEq ε] [DecidableEq α] :
    DecidableEq (Except ε α)
  | .error a, .error b =>
    if h : a = b then isTrue (congrArg Except.error h)
    else isFalse (fun hc => h (Except.error.inj hc))
  | .error _, .ok _ => isFalse Except.noConfusion
  | .ok _, .error _ => isFalse Except.noConfusion
  | .ok a, .ok b =>
    if h : a = b then isTrue (congrArg Except.ok h)
    else isFalse (fun hc => h (Except.ok.inj hc))

/-- The authorized children among `children`, paired with the delegating
role's name, in declared order — what the scanning loop accumulates
before any terminating child is reached. -/
def collectAuthorized (children : List DelegatedRole) (target_filepath role_name : String) :
    List (String × String) :=
  children.filterMap (fun d =>
    match visit_child_role d target_filepath with
    | .ok (some n) => some (n, role_name)
    | _ => none)

/-- The versions requested from the remote, in order, during a
`_load_root` run. -/
def fetchedVersions (tr : List RootEv) : List Nat :=
  tr.filterMap (fun e => match e with | .fetchRoot v => some v | _ => none)

/-- How many times `root_update_finished` was called during a run. -/
def finishCount (tr : List RootEv) : Nat :=
  (tr.filter (fun e => match e with | .finishedEv => true | _ => false)).length

/-- Scan of a root-run trace checking that no fetch happens while an
earlier fetched root is still unpersisted: the flag records whether a
fetch is pending without a following persist. -/
def persistSeparatedAux : Bool → List RootEv → Bool
  | _, [] => true
  | pending, .fetchRoot _ :: rest => !pending && persistSeparatedAux true rest
  | _, .persistRoot _ :: rest => persistSeparatedAux false rest
  | pending, .finishedEv :: rest => persistSeparatedAux pending rest

/-- Every fetch after the first one is preceded by a persist of the
previously accepted root. -/
def persistSeparatedB (tr : List RootEv) : Bool :=
  persistSeparatedAux false tr

/- ## Concrete oracle environments for witnesses and counterexamples -/

/-- A remote with roots at versions 2 and 3 (all accepted), version 4
missing (HTTP 404); the final expiry check passes. -/
def rootEnvW : RootEnv :=
  ⟨fun v => if v ≤ 3 then .success v else .httpError 404, fun _ => true, true⟩

/-- A timestamp environment where the local timestamp is unreadable and
the remote timestamp (bytes `7`) is accepted. -/
def tsEnvW : TsEnv := ⟨none, fun _ => false, some 7, fun _ => true⟩

/-- A snapshot environment whose timestamp reference declares a length of
`0`: Python `metainfo.length or config` then falls back to the
configured maximum (`7`), although the reference is not absent. -/
def snapEnvZero : SnapEnv :=
  ⟨none, fun _ => false, some 0, 5, false, 7, fun _ _ => some 1, fun _ => true⟩

/-- A consistent-snapshot environment with local cache failure: the
versioned filename `5.snapshot.json` is fetched with the declared
length `9`. -/
def snapEnvCons : SnapEnv :=
  ⟨some 3, fun _ => false, some 9, 5, true, 7, fun _ _ => some 2, fun _ => true⟩

/-- A snapshot environment whose local cache loads and validates, so no
remote fetch should occur. -/
def snapEnvLocal : SnapEnv :=
  ⟨some 3, fun _ => true, some 9, 5, true, 7, fun _ _ => some 2, fun _ => true⟩

/-- Verification oracle for the updated-targets witness: only
`/d/ok.txt` passes the length-and-hashes check. -/
def vW9 : String → Nat → Bool := fun p _ => p == "/d/ok.txt"

/-- Target list with a passing entry and a duplicated failing entry. -/
def targets9 : List TargetDict := [⟨"ok.txt", 1⟩, ⟨"bad.txt", 2⟩, ⟨"bad.txt", 3⟩]


example :
    get_filepath_hash "a.txt" =
      "18b7cb099a9ea3f50ba899b5ba81e0d377a5f3b16f8f6eeb8b3e58cd4692b993" := by
  decide

example : fnmatchB "a.txt" "*.txt" = true := by decide
example : fnmatchB "a.tgz" "*.txt" = false := by decide
example : fnmatchB (lstripSep "foo.tgz") (lstripSep "/*.tgz") = true := by decide
example : fnmatchB "ab" "[!b]b" = true := by decide
example : fnmatchB "bb" "[!b]b" = false := by decide
example : fnmatchB "abc" "a[b-d]c" = true := by decide
example : fnmatchB "aec" "a[b-d]c" = false := by decide
example : fnmatchB "a]c" "a[]]c" = true := by decide
example : fnmatchB "x" "?" = true := by decide
example : fnmatchB "a[c" "a[c" = true := by decide

/- ## Claims -/

/-- C7: for every child role declaring `path_hash_prefixes` and every
target path, `_visit_child_role` authorizes the child (returns its role
name) if and only if the lowercase hex encoding of the SHA-256 digest of
the UTF-8 encoding of the target path starts with at least one of the
declared prefixes; if none matches, `None` is returned. -/
theorem c7_hash_bin_authorization (child_role : DelegatedRole) (ps : List String)
    (target_filepath : String)
    (hps : child_role.path_hash_prefixes = some ps) :
    (visit_child_role child_role target_filepath = .ok (some child_role.name) ↔
       ∃ p ∈ ps, p.data.isPrefixOf (get_filepath_hash target_filepath).data = true) ∧
    ((¬∃ p ∈ ps, p.data.isPrefixOf (get_filepath_hash target_filepath).data = true) →
       visit_child_role child_role target_filepath = .ok none) ∧
    get_filepath_hash target_filepath = hexEncode (sha256 (utf8Encode target_filepath)) := by
  have hvisit : visit_child_role child_role target_filepath =
      if ps.any (fun p => p.data.isPrefixOf (get_filepath_hash target_filepath).data)
      then .ok (some child_role.name) else .ok none := by
    simp only [visit_child_role, hps]
  rw [hvisit]
  by_cases h : ps.any (fun p => p.data.isPrefixOf (get_filepath_hash target_filepath).data)
  · rw [if_pos h]
    exact ⟨⟨fun _ => List.any_eq_true.mp h, fun _ => rfl⟩,
           fun hn => absurd (List.any_eq_true.mp h) hn, rfl⟩
  · rw [if_neg h]
    exact ⟨⟨fun he => absurd (Except.ok.inj he) (fun hc => Option.noConfusion hc),
            fun hex => absurd (List.any_eq_true.mpr hex) h⟩,
           fun _ => rfl, rfl⟩

/-- Witness for C7: the SHA-256 hex digest of `"a.txt"` starts with
`"18b7"`, so a child declaring prefixes `["zz", "18b7"]` is authorized,
while one declaring only `["00", "01"]` is not. -/
theorem c7_witness :
    visit_child_role ⟨"bin", none, some ["zz", "18b7"], false⟩ "a.txt" = .ok (some "bin") ∧
    visit_child_role ⟨"bin2", none, some ["00", "01"], false⟩ "a.txt" = .ok none :=
  ⟨(c7_hash_bin_authorization ⟨"bin", none, some ["zz", "18b7"], false⟩ ["zz", "18b7"]
      "a.txt" rfl).1.mpr ⟨"18b7", by decide, by decide⟩,
   (c7_hash_bin_authorization ⟨"bin2", none, some ["00", "01"], false⟩ ["00", "01"]
      "a.txt" rfl).2.1 (by decide)⟩

/-- C8: a child delegation declaring neither `paths` nor
`path_hash_prefixes` makes `_visit_child_role` raise a `FormatError` for
any target path. -/
theorem c8_missing_fields_format_error (child_role : DelegatedRole)
    (target_filepath : String)
    (h1 : child_role.path_hash_prefixes = none) (h2 : child_role.paths = none) :
    visit_child_role child_role target_filepath = .error .formatError := by
  simp only [visit_child_role, h1, h2]

/-- Witness for C8 at a concrete malformed delegation. -/
theorem c8_witness :
    visit_child_role ⟨"E", none, none, false⟩ "any/path" = .error .formatError :=
  c8_missing_fields_format_error ⟨"E", none, none, false⟩ "any/path" rfl rfl

/-- Invariant of the `updated_targets` loop, generalized over the
`updated_targetpaths` accumulator `seen`: everything returned came from
the input and failed its check; every failing input target's destination
path is either already in `seen` or in the returned paths; the returned
destination paths are duplicate-free and disjoint from `seen`. -/
theorem updatedTargetsLoop_spec (verifyOk : String → Nat → Bool) (dd : String)
    (ts : List TargetDict) : ∀ seen : List String,
    (∀ t ∈ updatedTargetsLoop verifyOk dd ts seen,
       t ∈ ts ∧ verifyOk (osPathJoin dd t.filepath) t.fileinfo = false) ∧
    (∀ t ∈ ts, verifyOk (osPathJoin dd t.filepath) t.fileinfo = false →
       osPathJoin dd t.filepath ∈ seen ∨
       osPathJoin dd t.filepath ∈
         (updatedTargetsLoop verifyOk dd ts seen).map (fun u => osPathJoin dd u.filepath)) ∧
    ((updatedTargetsLoop verifyOk dd ts seen).map (fun u => osPathJoin dd u.filepath)).Nodup ∧
    (∀ q ∈ (updatedTargetsLoop verifyOk dd ts seen).map (fun u => osPathJoin dd u.filepath),
       q ∉ seen) := by
  induction ts with
  | nil => intro seen; simp [updatedTargetsLoop]
  | cons t rest ih =>
    intro seen
    by_cases hseen : osPathJoin dd t.filepath ∈ seen
    · have hrec := ih seen
      simp only [updatedTargetsLoop, if_pos hseen]
      refine ⟨?_, ?_, hrec.2.2.1, hrec.2.2.2⟩
      · intro u hu
        have h := hrec.1 u hu
        exact ⟨List.mem_cons_of_mem _ h.1, h.2⟩
      · intro u hu hfail
        rcases List.mem_cons.mp hu with heq | hmem
        · subst heq; exact Or.inl hseen
        · exact hrec.2.1 u hmem hfail
    · by_cases hver : verifyOk (osPathJoin dd t.filepath) t.fileinfo = true
      · have hrec := ih seen
        simp only [updatedTargetsLoop, if_neg hseen, if_pos hver]
        refine ⟨?_, ?_, hrec.2.2.1, hrec.2.2.2⟩
        · intro u hu
          have h := hrec.1 u hu
          exact ⟨List.mem_cons_of_mem _ h.1, h.2⟩
        · intro u hu hfail
          rcases List.mem_cons.mp hu with heq | hmem
          · subst heq; exact absurd hver (by simp [hfail])
          · exact hrec.2.1 u hmem hfail
      · have hrec := ih (osPathJoin dd t.filepath :: seen)
        simp only [updatedTargetsLoop, if_neg hseen, if_neg hver]
        have hver' : verifyOk (osPathJoin dd t.filepath) t.fileinfo = false :=
          Bool.eq_false_iff.mpr hver
        refine ⟨?_, ?_, ?_, ?_⟩
        · intro u hu
          rcases List.mem_cons.mp hu with heq | hmem
          · subst heq; exact ⟨List.mem_cons_self _ _, hver'⟩
          · have h := hrec.1 u hmem
            exact ⟨List.mem_cons_of_mem _ h.1, h.2⟩
        · intro u hu hfail
          rcases List.mem_cons.mp hu with heq | hmem
          · subst heq; exact Or.inr (by simp)
          · rcases hrec.2.1 u hmem hfail with hs | hm
            · rcases List.mem_cons.mp hs with heq2 | hs2
              · exact Or.inr (by simp [heq2])
              · exact Or.inl hs2
            · exact Or.inr (List.mem_cons_of_mem _ hm)
        · refine List.nodup_cons.mpr ⟨?_, hrec.2.2.1⟩
          intro hmem
          exact hrec.2.2.2 _ hmem (List.mem_cons_self _ _)
        · intro q hq
          rcases List.mem_cons.mp hq with heq | hmem
          · subst heq; exact hseen
          · intro hqseen
            exact hrec.2.2.2 q hmem (List.mem_cons_of_mem _ hqseen)

/-- C9: `updated_targets` returns exactly the input targets whose
destination file is missing, unreadable, or fails the declared
length-and-hashes check (all modelled by the `verifyOk` oracle returning
`false` for the joined destination path): every returned target is such
an input target, every failing input target's destination path occurs
among the returned destination paths, and no destination path occurs
twice in the result even when the same target is listed more than once
in the input. -/
theorem c9_updated_targets (verifyOk : String → Nat → Bool)
    (targets : List TargetDict) (destination_directory : String) :
    (∀ t ∈ updated_targets verifyOk targets destination_directory,
       t ∈ targets ∧
       verifyOk (osPathJoin destination_directory t.filepath) t.fileinfo = false) ∧
    (∀ t ∈ targets,
       verifyOk (osPathJoin destination_directory t.filepath) t.fileinfo = false →
       osPathJoin destination_directory t.filepath ∈
         (updated_targets verifyOk targets destination_directory).map
           (fun u => osPathJoin destination_directory u.filepath)) ∧
    ((updated_targets verifyOk targets destination_directory).map
       (fun u => osPathJoin destination_directory u.filepath)).Nodup := by
  have h := updatedTargetsLoop_spec verifyOk destination_directory targets []
  exact ⟨h.1, fun t ht hf => (h.2.1 t ht hf).resolve_left (by simp), h.2.2.1⟩

/-- Witness for C9: with only `/d/ok.txt` passing verification and
`bad.txt` listed twice, the failing destination path is reported and the
duplicated entry is a member of the input that fails its check. -/
theorem c9_witness :
    osPathJoin "/d" "bad.txt" ∈
      (updated_targets vW9 targets9 "/d").map (fun u => osPathJoin "/d" u.filepath) ∧
    ((⟨"bad.txt", 2⟩ : TargetDict) ∈ targets9 ∧
      vW9 (osPathJoin "/d" "bad.txt") 2 = false) :=
  ⟨(c9_updated_targets vW9 targets9 "/d").2.1 ⟨"bad.txt", 2⟩ (by decide) (by decide),
   (c9_updated_targets vW9 targets9 "/d").1 ⟨"bad.txt", 2⟩ (by decide)⟩

/-- C6: in `_load_timestamp` the local load/accept attempt is best-effort
(an `OSError` or `RepositoryError` from it is swallowed: the trace and
the propagated outcome depend only on the remote half), the remote fetch
always happens, and the fetched timestamp is fed to `update_timestamp`
and persisted exactly on success. -/
theorem c6_load_timestamp_best_effort :
    (∀ env₁ env₂ : TsEnv, env₁.remoteFetch = env₂.remoteFetch →
       env₁.remoteUpdateOk = env₂.remoteUpdateOk →
       (load_timestamp env₁).trace = (load_timestamp env₂).trace ∧
       (load_timestamp env₁).outcome = (load_timestamp env₂).outcome) ∧
    (∀ env : TsEnv, TsEv.fetchRemote ∈ (load_timestamp env).trace) ∧
    (∀ env : TsEnv, ∀ d, env.remoteFetch = some d →
       (env.remoteUpdateOk d = true →
          (load_timestamp env).trace = [.localAttempt, .fetchRemote, .persistTs d] ∧
          (load_timestamp env).outcome = none ∧
          (load_timestamp env).trusted = some d) ∧
       (env.remoteUpdateOk d = false →
          (load_timestamp env).outcome = some .repoError ∧
          ∀ x, TsEv.persistTs x ∉ (load_timestamp env).trace)) ∧
    (∀ env : TsEnv, env.remoteFetch = none →
       (load_timestamp env).outcome = some .downloadError) := by
  refine ⟨?_, ?_, ?_, ?_⟩
  · intro env₁ env₂ hf hu
    unfold load_timestamp
    rw [hf, hu]
    cases env₂.remoteFetch with
    | none => exact ⟨rfl, rfl⟩
    | some d =>
      by_cases h : env₂.remoteUpdateOk d = true
      · simp [h]
      · simp [h]
  · intro env
    unfold load_timestamp
    cases env.remoteFetch with
    | none => simp
    | some d =>
      by_cases h : env.remoteUpdateOk d = true
      · simp [h]
      · simp [h]
  · intro env d hd
    constructor
    · intro hok
      unfold load_timestamp
      rw [hd]
      simp [hok]
    · intro hbad
      unfold load_timestamp
      rw [hd]
      simp only [hbad]
      exact ⟨rfl, by intro x; simp⟩
  · intro env hd
    unfold load_timestamp
    rw [hd]

/-- Witness for C6: with an unreadable local timestamp, the run still
fetches remotely, accepts and persists the remote bytes `7`. -/
theorem c6_witness :
    (load_timestamp tsEnvW).trace = [.localAttempt, .fetchRemote, .persistTs 7] ∧
    (load_timestamp tsEnvW).outcome = none ∧
    (load_timestamp tsEnvW).trusted = some 7 :=
  (c6_load_timestamp_best_effort.2.2.1 tsEnvW 7 rfl).1 rfl

/-- Counterexample for C5: the length computation is Python
`metainfo.length or config`, so a reference that declares length `0` is
treated as falsy and the configured `snapshot_max_length` (`7`) is used
— the claim's "length taken from the reference or, when absent, the
configuration" predicts a fetch with length `0` here, which does not
happen. -/
theorem c5_counterexample :
    load_snapshot snapEnvZero =
      ([.localAttempt, .fetchSnap "snapshot.json" 7, .persistSnap 1], none) ∧
    snapEnvZero.metaLength = some 0 ∧
    snapEnvZero.snapshot_max_length = 7 ∧
    SnapEv.fetchSnap "snapshot.json" 0 ∉ (load_snapshot snapEnvZero).1 := by
  decide

/-- The remote half of `_load_snapshot` always begins with the snapshot
fetch under the computed filename and length. -/
theorem snapshotRemote_head (env : SnapEnv) :
    ∃ rest, (snapshotRemote env).1 =
      .fetchSnap (metadata_filename "snapshot" (snapshotFetchVersion env))
        (snapshotFetchLength env) :: rest := by
  simp only [snapshotRemote]
  cases env.remoteFetch (metadata_filename "snapshot" (snapshotFetchVersion env))
      (snapshotFetchLength env) with
  | none => exact ⟨[], rfl⟩
  | some d =>
    by_cases h : env.remoteUpdateOk d = true
    · exact ⟨[.persistSnap d], by simp [h]⟩
    · exact ⟨[], by simp [h]⟩

/-- C5 (amended): if the locally cached snapshot loads and validates, no
remote fetch occurs; on local failure the remote snapshot is fetched,
with the versioned filename exactly when the trusted root's
`consistent_snapshot` flag is set, and with the download length taken
from the timestamp reference when it is present and nonzero, and from
the configured `snapshot_max_length` when it is absent or zero (Python
`or` treats a declared `0` as falsy). -/
theorem c5_local_skip_and_remote_fetch (env : SnapEnv) :
    (localSnapshotOk env = true → load_snapshot env = ([.localAttempt], none)) ∧
    (localSnapshotOk env = false → ∃ rest,
       (load_snapshot env).1 =
         .localAttempt ::
           .fetchSnap
             (metadata_filename "snapshot"
               (if env.consistent_snapshot then some env.metaVersion else none))
             (match env.metaLength with
              | some l => if l = 0 then env.snapshot_max_length else l
              | none => env.snapshot_max_length) :: rest) ∧
    ((∀ v : Nat, metadata_filename "snapshot" (some v) = toString v ++ ".snapshot.json") ∧
      metadata_filename "snapshot" none = "snapshot.json") := by
  refine ⟨?_, ?_, ?_, rfl⟩
  · intro h
    unfold load_snapshot
    rw [h]
    simp
  · intro h
    obtain ⟨rest, hrest⟩ := snapshotRemote_head env
    refine ⟨rest, ?_⟩
    unfold load_snapshot
    rw [h]
    simp only [Bool.false_eq_true, if_false]
    rw [hrest]
    rfl
  · intro v
    show toString v ++ "." ++ "snapshot" ++ ".json" = toString v ++ ".snapshot.json"
    rw [String.append_assoc, String.append_assoc]
    have hlit : "." ++ ("snapshot" ++ ".json") = ".snapshot.json" := by decide
    rw [hlit]

/-- Witness for C5: a validating local snapshot produces no fetch, and a
failing local cache in a consistent-snapshot repository fetches
`5.snapshot.json` with the declared length `9`. -/
theorem c5_witness :
    load_snapshot snapEnvLocal = ([.localAttempt], none) ∧
    (∃ rest, (load_snapshot snapEnvCons).1 =
       .localAttempt :: .fetchSnap "5.snapshot.json" 9 :: rest) :=
  ⟨(c5_local_skip_and_remote_fetch snapEnvLocal).1 (by decide),
   (c5_local_skip_and_remote_fetch snapEnvCons).2.1 (by decide)⟩

/-- The versions requested by the rotation loop are consecutive, starting
at the requested version, and at most `count` of them are requested. -/
theorem rootLoop_fetched (env : RootEnv) :
    ∀ count v, ∃ k ≤ count, fetchedVersions (rootLoop env count v).1 = List.range' v k := by
  intro count
  induction count with
  | zero => intro v; exact ⟨0, Nat.le_refl 0, rfl⟩
  | succ n ih =>
    intro v
    cases hf : env.fetch v with
    | success d =>
      by_cases hu : env.updateOk d = true
      · obtain ⟨k, hk, hfe⟩ := ih (v + 1)
        refine ⟨k + 1, Nat.succ_le_succ hk, ?_⟩
        simp only [rootLoop, hf, hu, if_true]
        rw [List.range'_succ]
        simp only [fetchedVersions, List.filterMap_cons] at hfe ⊢
        rw [hfe]
      · refine ⟨1, Nat.succ_le_succ (Nat.zero_le n), ?_⟩
        simp [rootLoop, hf, hu, fetchedVersions]
    | httpError s =>
      refine ⟨1, Nat.succ_le_succ (Nat.zero_le n), ?_⟩
      by_cases hs : s = 403 ∨ s = 404
      · simp [rootLoop, hf, hs, fetchedVersions]
      · simp [rootLoop, hf, hs, fetchedVersions]
    | failure =>
      refine ⟨1, Nat.succ_le_succ (Nat.zero_le n), ?_⟩
      simp [rootLoop, hf, fetchedVersions]

/-- The rotation loop never calls `root_update_finished`. -/
theorem rootLoop_noFinish (env : RootEnv) :
    ∀ count v, finishCount (rootLoop env count v).1 = 0 := by
  intro count
  induction count with
  | zero => intro v; rfl
  | succ n ih =>
    intro v
    cases hf : env.fetch v with
    | success d =>
      by_cases hu : env.updateOk d = true
      · simp only [rootLoop, hf, hu, if_true]
        simp only [finishCount, List.filter_cons] at ih ⊢
        simpa using ih (v + 1)
      · simp [rootLoop, hf, hu, finishCount]
    | httpError s =>
      by_cases hs : s = 403 ∨ s = 404
      · simp [rootLoop, hf, hs, finishCount]
      · simp [rootLoop, hf, hs, finishCount]
    | failure => simp [rootLoop, hf, finishCount]

/-- In any rotation-loop trace, a new fetch only happens after the
previously accepted root has been persisted (generalized over a trace
tail through which the scan may continue). -/
theorem rootLoop_persistSep (env : RootEnv) :
    ∀ count v tail, persistSeparatedAux true tail = true →
      persistSeparatedAux false tail = true →
      persistSeparatedAux false ((rootLoop env count v).1 ++ tail) = true := by
  intro count
  induction count with
  | zero => intro v tail _ h0; simpa using h0
  | succ n ih =>
    intro v tail h1 h0
    cases hf : env.fetch v with
    | success d =>
      by_cases hu : env.updateOk d = true
      · simp only [rootLoop, hf, hu, if_true, List.cons_append, persistSeparatedAux,
          Bool.not_false, Bool.true_and]
        exact ih (v + 1) tail h1 h0
      · simp only [rootLoop, hf, hu, if_false, List.cons_append, List.nil_append,
          persistSeparatedAux, Bool.not_false, Bool.true_and]
        exact h1
    | httpError s =>
      by_cases hs : s = 403 ∨ s = 404
      · simp only [rootLoop, hf, hs, if_true, List.cons_append, List.nil_append,
          persistSeparatedAux, Bool.not_false, Bool.true_and]
        exact h1
      · simp only [rootLoop, hf, hs, if_false, List.cons_append, List.nil_append,
          persistSeparatedAux, Bool.not_false, Bool.true_and]
        exact h1
    | failure =>
      simp only [rootLoop, hf, List.cons_append, List.nil_append,
        persistSeparatedAux, Bool.not_false, Bool.true_and]
      exact h1

/-- C4: during root rotation, versions `current+1, current+2, ...` are
requested consecutively, at most `max_root_rotations` of them; an HTTP
403/404 download failure ends the loop normally while any other status
is re-raised and any non-HTTP download failure propagates; every
accepted root is persisted before the next version is requested (no two
fetches without a persist in between); and in every non-fatal execution
`root_update_finished` is called exactly once, after the loop. -/
theorem c4_load_root (env : RootEnv) (currentVersion max_root_rotations : Nat) :
    (∃ k ≤ max_root_rotations,
       fetchedVersions (load_root env currentVersion max_root_rotations).1 =
         List.range' (currentVersion + 1) k) ∧
    persistSeparatedB (load_root env currentVersion max_root_rotations).1 = true ∧
    ((load_root env currentVersion max_root_rotations).2 = none →
       ∃ tr, (load_root env currentVersion max_root_rotations).1 = tr ++ [.finishedEv] ∧
         finishCount tr = 0) ∧
    (∀ count v s, env.fetch v = .httpError s →
       rootLoop env (count + 1) v =
         ([.fetchRoot v], if s = 403 ∨ s = 404 then none else some (.httpFatal s))) ∧
    (∀ count v, env.fetch v = .failure →
       rootLoop env (count + 1) v = ([.fetchRoot v], some .fetchFailure)) ∧
    (∀ count v d, env.fetch v = .success d → env.updateOk d = true →
       rootLoop env (count + 1) v =
         (.fetchRoot v :: .persistRoot d :: (rootLoop env count (v + 1)).1,
          (rootLoop env count (v + 1)).2)) := by
  refine ⟨?_, ?_, ?_, ?_, ?_, ?_⟩
  · obtain ⟨k, hk, hfe⟩ := rootLoop_fetched env max_root_rotations (currentVersion + 1)
    refine ⟨k, hk, ?_⟩
    unfold load_root
    cases hr : (rootLoop env max_root_rotations (currentVersion + 1)).2 with
    | some e => simpa [hr] using hfe
    | none =>
      simp only [hr]
      rw [show fetchedVersions ((rootLoop env max_root_rotations (currentVersion + 1)).1 ++
          [RootEv.finishedEv]) =
          fetchedVersions (rootLoop env max_root_rotations (currentVersion + 1)).1 by
        simp [fetchedVersions]]
      exact hfe
  · unfold load_root persistSeparatedB
    cases hr : (rootLoop env max_root_rotations (currentVersion + 1)).2 with
    | some e =>
      simp only [hr]
      have h := rootLoop_persistSep env max_root_rotations (currentVersion + 1) [] rfl rfl
      simpa using h
    | none =>
      simp only [hr]
      exact rootLoop_persistSep env max_root_rotations (currentVersion + 1)
        [.finishedEv] rfl rfl
  · intro hout
    unfold load_root at hout ⊢
    cases hr : (rootLoop env max_root_rotations (currentVersion + 1)).2 with
    | some e => rw [hr] at hout; exact absurd hout (by simp)
    | none =>
      simp only [hr]
      exact ⟨(rootLoop env max_root_rotations (currentVersion + 1)).1, rfl,
        rootLoop_noFinish env max_root_rotations (currentVersion + 1)⟩
  · intro count v s hf
    simp only [rootLoop, hf]
    by_cases hs : s = 403 ∨ s = 404
    · rw [if_pos hs, if_pos hs]
    · rw [if_neg hs, if_neg hs]
  · intro count v hf
    simp [rootLoop, hf]
  · intro count v d hf hu
    simp [rootLoop, hf, hu]

/-- Witness for C4: with roots 2 and 3 on the remote and version 4
missing (404), the missing version ends the loop normally and the
non-fatal run calls `root_update_finished` exactly once at the end. -/
theorem c4_witness :
    rootLoop rootEnvW 1 5 = ([.fetchRoot 5], none) ∧
    (∃ tr, (load_root rootEnvW 1 10).1 = tr ++ [.finishedEv] ∧ finishCount tr = 0) := by
  constructor
  · have h := (c4_load_root rootEnvW 1 10).2.2.2.1 0 5 404 (by decide)
    simpa using h
  · exact (c4_load_root rootEnvW 1 10).2.2.1 (by decide)

/-- C2: for every visited role the target path is looked up in the role's
own targets mapping first: if the mapping contains the path, the walk
stops at that iteration with that entry, before any of the role's child
delegations are examined (the outcome does not depend on the role's
`delegations` or on anything still on the stack); consequently, in a
repository where `targets` both declares `a.txt` and delegates to a
child `B` that also claims it, resolution returns the top-level entry. -/
theorem c2_preorder_priority :
    (∀ (env : Repo) (t : String) (fuel budget : Nat) (role_name parent_role : String)
       (rest visited : List (String × String)) (pops fv : Nat) (meta : TargetsRole) (fi : Nat),
       budget ≠ 0 →
       env.lookup role_name = some meta →
       (role_name, parent_role) ∉ visited →
       meta.targets.lookup t = some fi →
       walkLoop env t (fuel + 1) budget ((role_name, parent_role) :: rest) visited pops fv =
         some (.ok ⟨some fi, pops + 1, fv + 1, budget - 1⟩)) ∧
    preorder_depth_first_walk repoTopB 10 "a.txt" = some (.ok ⟨"a.txt", some 0⟩) := by
  constructor
  · intro env t fuel budget role_name parent_role rest visited pops fv meta fi hb hlook hvis hfound
    simp only [walkLoop]
    rw [if_neg hb]
    simp only [hlook]
    rw [if_neg hvis]
    simp only [hfound]
  · decide

/-- Witness for C2: popping `targets` (which declares `a.txt` with
fileinfo `0`) resolves immediately with budget `10 - 1 = 9` after one
pop, regardless of the delegation to `B`. -/
theorem c2_witness :
    walkLoop repoTopB "a.txt" 5 10 [("targets", "root")] [] 0 0 =
      some (.ok ⟨some 0, 1, 1, 9⟩) := by
  have h := c2_preorder_priority.1 repoTopB "a.txt" 4 10 "targets" "root" [] [] 0 0
    ⟨[("a.txt", 0)], some [roleB]⟩ 0 (by decide) (by decide) (by decide) (by decide)
  simpa using h

/-- Counterexample for C1: in `repoST` the terminating child `T` is
authorized for `a.txt`, yet after scanning, the queue holds the
earlier-declared authorized sibling `S` as well — not "only that
terminating child" — and since `S` is popped first and claims `a.txt`,
resolution returns `S`'s entry (fileinfo `1`) instead of the null result
that a `T`-only queue would produce. -/
theorem c1_counterexample :
    scanChildren [roleS, roleT] "a.txt" "targets" =
      .ok ([("S", "targets"), ("T", "targets")], true) ∧
    roleT.terminating = true ∧
    visit_child_role roleT "a.txt" = .ok (some "T") ∧
    [("S", "targets"), ("T", "targets")] ≠ [("T", "targets")] ∧
    preorder_depth_first_walk repoST 10 "a.txt" = some (.ok ⟨"a.txt", some 1⟩) := by
  decide

/-- C1 (amended): when the scan reaches a terminating authorized child,
scanning of the remaining later-declared children stops immediately (the
result does not depend on `post`) and the terminating child is queued
after the authorized children already collected from the earlier
siblings — not alone, unless no earlier sibling was authorized; the
signal `true` makes the walk discard the entire remaining work stack
(the continuation does not depend on `rest`).  Consequently, for a
terminating child `C` that matches the requested path but does not claim
the target and has no earlier authorized siblings, a later-declared
sibling `D` that matches and claims it is never visited and resolution
returns a null result. -/
theorem c1_terminating_behaviour :
    (∀ (pre post : List DelegatedRole) (c : DelegatedRole) (t role_name : String),
       (∀ d ∈ pre, visit_child_role d t = .ok none ∨
          (d.terminating = false ∧ visit_child_role d t = .ok (some d.name))) →
       c.terminating = true →
       visit_child_role c t = .ok (some c.name) →
       scanChildren (pre ++ c :: post) t role_name =
         .ok (collectAuthorized pre t role_name ++ [(c.name, role_name)], true)) ∧
    (∀ (env : Repo) (t : String) (fuel budget : Nat) (role_name parent_role : String)
       (rest visited : List (String × String)) (pops fv : Nat) (meta : TargetsRole)
       (tv : List (String × String)),
       budget ≠ 0 →
       env.lookup role_name = some meta →
       (role_name, parent_role) ∉ visited →
       meta.targets.lookup t = none →
       scanChildren (meta.delegations.getD []) t role_name = .ok (tv, true) →
       walkLoop env t (fuel + 1) budget ((role_name, parent_role) :: rest) visited pops fv =
         walkLoop env t fuel (budget - 1) tv
           ((role_name, parent_role) :: visited) (pops + 1) (fv + 1)) ∧
    preorder_depth_first_walk repoCD 10 "a.txt" = some (.ok ⟨"a.txt", none⟩) := by
  refine ⟨?_, ?_, by decide⟩
  · intro pre
    induction pre with
    | nil =>
      intro post c t role_name _ hterm hvis
      simp only [List.nil_append, scanChildren, hvis, hterm, collectAuthorized,
        List.filterMap_nil, List.nil_append]
    | cons d pre ih =>
      intro post c t role_name hpre hterm hvis
      have hd := hpre d (List.mem_cons_self d pre)
      have hrest : ∀ e ∈ pre, visit_child_role e t = .ok none ∨
          (e.terminating = false ∧ visit_child_role e t = .ok (some e.name)) :=
        fun e he => hpre e (List.mem_cons_of_mem d he)
      have ihr := ih post c t role_name hrest hterm hvis
      rcases hd with hnone | ⟨hdt, hsome⟩
      · simp only [List.cons_append, scanChildren, hnone, List.append_eq]
        rw [ihr]
        simp only [collectAuthorized, List.filterMap_cons, hnone]
      · simp only [List.cons_append, scanChildren, hsome, hdt, List.append_eq]
        rw [ihr]
        simp only [collectAuthorized, List.filterMap_cons, hsome, List.cons_append]
  · intro env t fuel budget role_name parent_role rest visited pops fv meta tv
      hb hlook hvis hmiss hscan
    simp only [walkLoop]
    rw [if_neg hb]
    simp only [hlook]
    rw [if_neg hvis]
    simp only [hmiss, hscan]
    simp

/-- Witness for C1: with `pre = [S]` (authorized, non-terminating) and
terminating `c = T`, the scan returns both queued entries and the
cleared-stack signal. -/
theorem c1_witness :
    scanChildren [roleS, roleT] "a.txt" "targets" =
      .ok (collectAuthorized [roleS] "a.txt" "targets" ++ [("T", "targets")], true) := by
  have h := c1_terminating_behaviour.1 [roleS] [] roleT "a.txt" "targets"
    (by decide) (by decide) (by decide)
  simpa using h

/-- Counterexample for C3: in `repoAA` the pair `("A", "targets")` is
pushed twice; the run performs 3 pops but the budget only drops from 10
to 8, because the pop of the already-visited pair is skipped *before*
the budget decrement.  Under the claim ("every pop consumes one unit,
including a skipped one") the budget consumed would equal the number of
pops, i.e. `10 - 8 = 3` — which is false. -/
theorem c3_counterexample :
    walkLoop repoAA "x" 30 10 [("targets", "root")] [] 0 0 =
      some (.ok ⟨none, 3, 2, 8⟩) ∧
    ¬(10 - (8 : Nat) = 3) := by
  decide

/-- C3 (amended): the budget is charged only on first visits: along any
completed run, the budget consumed equals the number of iterations that
passed the visited-set check (`firstVisits`), which can be strictly
fewer than the pops; a pop of an already-visited pair performs the
`_load_targets` round-trip but is skipped before the budget decrement,
leaving the budget and the first-visit count unchanged. -/
theorem c3_budget_accounting :
    (∀ (env : Repo) (t : String) (fuel budget : Nat) (stack visited : List (String × String))
       (pops fv : Nat) (stats : WalkStats),
       walkLoop env t fuel budget stack visited pops fv = some (.ok stats) →
       stats.budgetLeft + stats.firstVisits = budget + fv ∧
       fv ≤ stats.firstVisits ∧ pops ≤ stats.pops ∧
       stats.firstVisits - fv ≤ stats.pops - pops) ∧
    (∀ (env : Repo) (t : String) (fuel budget : Nat) (role_name parent_role : String)
       (rest visited : List (String × String)) (pops fv : Nat) (meta : TargetsRole),
       budget ≠ 0 →
       env.lookup role_name = some meta →
       (role_name, parent_role) ∈ visited →
       walkLoop env t (fuel + 1) budget ((role_name, parent_role) :: rest) visited pops fv =
         walkLoop env t fuel budget rest visited (pops + 1) fv) := by
  constructor
  · intro env t fuel
    induction fuel with
    | zero =>
      intro budget stack visited pops fv stats h
      exact absurd h (by simp [walkLoop])
    | succ n ih =>
      intro budget stack visited pops fv stats h
      simp only [walkLoop] at h
      by_cases hb : budget = 0
      · rw [if_pos hb] at h
        simp only [Option.some.injEq, Except.ok.injEq] at h
        subst h
        dsimp only
        omega
      · rw [if_neg hb] at h
        cases stack with
        | nil =>
          simp only [Option.some.injEq, Except.ok.injEq] at h
          subst h
          dsimp only
          omega
        | cons hd rest =>
          obtain ⟨role_name, parent_role⟩ := hd
          cases hlook : env.lookup role_name with
          | none =>
            simp only [hlook] at h
            exact Except.noConfusion (Option.some.inj h)
          | some meta =>
            simp only [hlook] at h
            by_cases hvis : (role_name, parent_role) ∈ visited
            · rw [if_pos hvis] at h
              have hr := ih budget rest visited (pops + 1) fv stats h
              exact ⟨hr.1, hr.2.1, by omega, by omega⟩
            · rw [if_neg hvis] at h
              cases hfound : meta.targets.lookup t with
              | some fi =>
                simp only [hfound, Option.some.injEq, Except.ok.injEq] at h
                subst h
                dsimp only
                omega
              | none =>
                simp only [hfound] at h
                cases hscan : scanChildren (meta.delegations.getD []) t role_name with
                | error e =>
                  simp only [hscan] at h
                  exact Except.noConfusion (Option.some.inj h)
                | ok p =>
                  obtain ⟨tv, cleared⟩ := p
                  simp only [hscan] at h
                  have hr := ih (budget - 1)
                    (tv ++ if cleared then [] else rest)
                    ((role_name, parent_role) :: visited) (pops + 1) (fv + 1) stats h
                  refine ⟨by omega, by omega, by omega, by omega⟩
  · intro env t fuel budget role_name parent_role rest visited pops fv meta hb hlook hvis
    simp only [walkLoop]
    rw [if_neg hb]
    simp only [hlook]
    rw [if_pos hvis]

/-- Witness for C3: on the `repoAA` run the accounting identity holds —
the final budget (8) plus the first visits (2) equals the initial budget
(10), while 3 pops were performed. -/
theorem c3_witness :
    walkLoop repoAA "x" 30 10 [("targets", "root")] [] 0 0 =
      some (.ok ⟨none, 3, 2, 8⟩) ∧
    (8 : Nat) + 2 = 10 + 0 :=
  ⟨by decide,
   (c3_budget_accounting.1 repoAA "x" 30 10 [("targets", "root")] [] 0 0
     ⟨none, 3, 2, 8⟩ (by decide)).1⟩

/-- The scanning loop queues at most as many children as were declared. -/
theorem scanChildren_length :
    ∀ (children : List DelegatedRole) (t role_name : String) (tv : List (String × String))
      (cleared : Bool),
      scanChildren children t role_name = .ok (tv, cleared) →
      tv.length ≤ children.length := by
  intro children
  induction children with
  | nil =>
    intro t role_name tv cleared h
    simp only [scanChildren, Except.ok.injEq, Prod.mk.injEq] at h
    rw [← h.1]
    simp
  | cons child rest ih =>
    intro t role_name tv cleared h
    simp only [scanChildren] at h
    cases hv : visit_child_role child t with
    | error e => rw [hv] at h; exact absurd h (by simp)
    | ok name =>
      rw [hv] at h
      cases name with
      | none =>
        have := ih t role_name tv cleared h
        simpa using Nat.le_succ_of_le this
      | some n =>
        cases hterm : child.terminating with
        | true =>
          rw [hterm] at h
          simp only [Except.ok.injEq, Prod.mk.injEq] at h
          rw [← h.1]
          simp
        | false =>
          rw [hterm] at h
          cases hs : scanChildren rest t role_name with
          | error e => rw [hs] at h; exact absurd h (by simp)
          | ok p =>
            obtain ⟨tv2, cl2⟩ := p
            rw [hs] at h
            simp only [Except.ok.injEq, Prod.mk.injEq] at h
            rw [← h.1]
            simpa using Nat.succ_le_succ (ih t role_name tv2 cl2 hs)

/-- A role found in the repository declares at most `maxPush env`
children. -/
theorem lookup_le_maxPush :
    ∀ (env : Repo) (name : String) (meta : TargetsRole),
      List.lookup name env = some meta →
      (meta.delegations.getD []).length ≤ maxPush env := by
  intro env
  induction env with
  | nil => intro name meta h; exact absurd h (by simp)
  | cons pr rest ih =>
    intro name meta h
    obtain ⟨k, v⟩ := pr
    have hmax : maxPush ((k, v) :: rest) =
        max (v.delegations.getD []).length (maxPush rest) := rfl
    simp only [List.lookup] at h
    cases hk : name == k with
    | true =>
      rw [hk] at h
      simp only [Option.some.injEq] at h
      rw [← h, hmax]
      exact Nat.le_max_left _ _
    | false =>
      rw [hk] at h
      rw [hmax]
      exact Nat.le_trans (ih name meta h) (Nat.le_max_right _ _)

/-- Fuel sufficiency: with `budget * maxPush env + stack.length + 1` fuel
units the loop can never run out, since every iteration either consumes
one budget unit (pushing at most `maxPush env` entries) or shrinks the
stack without pushing. -/
theorem walkLoop_total (env : Repo) (t : String) :
    ∀ (fuel budget : Nat) (stack visited : List (String × String)) (pops fv : Nat),
      budget * maxPush env + stack.length + 1 ≤ fuel →
      walkLoop env t fuel budget stack visited pops fv ≠ none := by
  intro fuel
  induction fuel with
  | zero =>
    intro budget stack visited pops fv hle
    exact absurd hle (by omega)
  | succ n ih =>
    intro budget stack visited pops fv hle
    simp only [walkLoop]
    by_cases hb : budget = 0
    · rw [if_pos hb]; simp
    · rw [if_neg hb]
      cases stack with
      | nil => simp
      | cons hd rest =>
        obtain ⟨role_name, parent_role⟩ := hd
        cases hlook : env.lookup role_name with
        | none => simp [hlook]
        | some meta =>
          simp only [hlook]
          by_cases hvis : (role_name, parent_role) ∈ visited
          · rw [if_pos hvis]
            apply ih
            simp only [List.length_cons] at hle
            omega
          · rw [if_neg hvis]
            cases hfound : meta.targets.lookup t with
            | some fi => simp [hfound]
            | none =>
              simp only [hfound]
              cases hscan : scanChildren (meta.delegations.getD []) t role_name with
              | error e => simp [hscan]
              | ok p =>
                obtain ⟨tv, cleared⟩ := p
                simp only [hscan]
                apply ih
                have htv : tv.length ≤ (meta.delegations.getD []).length :=
                  scanChildren_length _ t role_name tv cleared hscan
                have hmp := lookup_le_maxPush env role_name meta hlook
                have hlen : (tv ++ if cleared then [] else rest).length ≤
                    maxPush env + rest.length := by
                  cases cleared <;> simp [List.length_append] <;> omega
                obtain ⟨b, rfl⟩ : ∃ b, budget = b + 1 := ⟨budget - 1, by omega⟩
                simp only [List.length_cons, Nat.succ_mul, Nat.add_sub_cancel] at hle ⊢
                omega

/-- The walk never runs out of fuel at `sufficient_fuel`. -/
theorem preorder_total (env : Repo) (max_delegations : Nat) (t : String) :
    preorder_depth_first_walk env max_delegations t ≠ none := by
  unfold preorder_depth_first_walk
  have h := walkLoop_total env t (sufficient_fuel env max_delegations) max_delegations
    [("targets", "root")] [] 0 0 (by simp [sufficient_fuel])
  cases hw : walkLoop env t (sufficient_fuel env max_delegations) max_delegations
      [("targets", "root")] [] 0 0 with
  | none => exact absurd hw h
  | some r => cases r <;> simp

/-- C10: for every target path on which the walk completes without a
fatal error, the returned dictionary's `filepath` equals the input path;
exhaustion (budget spent or stack empty) ends the loop with a normal
result whose fileinfo entry is `none` — never an exception and never a
missing dictionary (the embedded walk is total at `sufficient_fuel`). -/
theorem c10_targetinfo_shape :
    (∀ (env : Repo) (max_delegations : Nat) (t : String),
       get_one_valid_targetinfo env max_delegations t ≠ none) ∧
    (∀ (env : Repo) (max_delegations : Nat) (t : String) (r : WalkResult),
       get_one_valid_targetinfo env max_delegations t = some (.ok r) → r.filepath = t) ∧
    (∀ (env : Repo) (t : String) (fuel budget : Nat)
       (stack visited : List (String × String)) (pops fv : Nat),
       budget = 0 ∨ stack = [] →
       walkLoop env t (fuel + 1) budget stack visited pops fv =
         some (.ok ⟨none, pops, fv, budget⟩)) ∧
    (∀ (env : Repo) (max_delegations : Nat) (t : String) (stats : WalkStats),
       walkLoop env t (sufficient_fuel env max_delegations) max_delegations
           [("targets", "root")] [] 0 0 = some (.ok stats) →
       get_one_valid_targetinfo env max_delegations t = some (.ok ⟨t, stats.fileinfo⟩)) := by
  refine ⟨?_, ?_, ?_, ?_⟩
  · intro env max_delegations t
    unfold get_one_valid_targetinfo
    exact preorder_total env max_delegations t
  · intro env max_delegations t r h
    unfold get_one_valid_targetinfo preorder_depth_first_walk at h
    cases hw : walkLoop env t (sufficient_fuel env max_delegations) max_delegations
        [("targets", "root")] [] 0 0 with
    | none => rw [hw] at h; exact absurd h (by simp)
    | some x =>
      rw [hw] at h
      cases x with
      | error e => exact absurd h (by simp)
      | ok stats =>
        simp only [Option.some.injEq, Except.ok.injEq] at h
        rw [← h]
  · intro env t fuel budget stack visited pops fv hd
    rcases hd with hb | hs
    · subst hb; simp [walkLoop]
    · subst hs
      by_cases hb : budget = 0 <;> simp [walkLoop, hb]
  · intro env max_delegations t stats h
    unfold get_one_valid_targetinfo preorder_depth_first_walk
    rw [h]

/-- Witness for C10: on the `repoAA` run the walk exhausts its stack
without resolving `x`, and the returned dictionary carries the input
path with a `none` fileinfo. -/
theorem c10_witness :
    get_one_valid_targetinfo repoAA 10 "x" = some (.ok ⟨"x", none⟩) := by
  have h := c10_targetinfo_shape.2.2.2 repoAA 10 "x" ⟨none, 3, 2, 8⟩ (by decide)
  simpa using h
